import Mathlib

/-
Verification development for the koishi-plugin-bangumi-sub repository.

The definitions below are a shallow embedding of the plugin's core logic:
the broadcast-time parser and season filter (src/services/bangumi.ts),
the calendar cache refresh pipeline (fetchCalendarData), the subscription
push scheduler (src/services/subscription.ts, checkAndPushSubscriptions),
and the subscribe / delete command actions.

Modelling conventions:
- JS numbers holding epoch milliseconds are modelled as Int (exact in range).
- `Date.getDay()` is modelled by proleptic-Gregorian day-counting from
  year 0 (the calendar V8 uses for all dates), calibrated so that
  1970-01-01 is a Thursday (JS day 4); an out-of-range component in a
  date-time string makes the JS Date invalid and `getDay()` return NaN.
  NaN is modelled as the weekday value 0: the two values are
  observationally equal in this program (both are falsy in `x || 0`
  and both lie outside the range 1..7 tested by every consumer).
- Date-only strings (`YYYY-MM-DD`) are parsed by V8 at UTC midnight and
  read back with local-time accessors; for a local timezone at or east of
  UTC (the plugin's deployment assumption) the local components equal the
  literal components, which is how `jsParseDateYM` models them.
- Regex searches are modelled by left-to-right scans over the character
  list, exactly mirroring the first-match semantics of `String.match`.
-/

namespace BangumiSub

/-! ## Calendar arithmetic: model of V8 `Date` component handling -/

def isLeapYear (y : Nat) : Bool :=
  (y % 4 == 0 && y % 100 != 0) || y % 400 == 0

def daysInMonth (y m : Nat) : Nat :=
  if m = 2 then (if isLeapYear y then 29 else 28)
  else if m = 4 ∨ m = 6 ∨ m = 9 ∨ m = 11 then 30
  else 31

def validDate (y m d : Nat) : Bool :=
  1 ≤ m && m ≤ 12 && 1 ≤ d && d ≤ daysInMonth y m

/-- Number of leap years in the interval [0, y) of the proleptic Gregorian
calendar (counting year 0, which is a leap year). -/
def leapYearsBefore (y : Nat) : Nat :=
  (y + 3) / 4 - (y + 99) / 100 + (y + 399) / 400

/-- Days from 0000-01-01 (proleptic Gregorian) to the given valid calendar
date; the year part uses the closed-form leap count. -/
def daysFromYearZero (y m d : Nat) : Nat :=
  365 * y + leapYearsBefore y
    + ((List.range (m - 1)).map (fun i => daysInMonth y (i + 1))).sum
    + (d - 1)

/-- Model of `Date.getDay()` for a valid calendar date: 0 = Sunday ..
6 = Saturday. The offset 6 makes 0000-01-01 a Saturday and hence
1970-01-01 a Thursday (day 4), matching V8 for every four-digit year. -/
def jsGetDayOfDate (y m d : Nat) : Nat :=
  (daysFromYearZero y m d + 6) % 7

def nextDate (y m d : Nat) : Nat × Nat × Nat :=
  if d < daysInMonth y m then (y, m, d + 1)
  else if m < 12 then (y, m + 1, 1)
  else (y + 1, 1, 1)

/-- Model of `new Date("YYYY-MM-DDTHH:MM:SS").getDay()` (local-time parse of a
timezone-less datetime string): `some` of the JS day for a valid datetime,
`none` when V8 yields an Invalid Date (out-of-range component; the special
legal time 24:00:00 rolls over to the next day). -/
def jsGetDayOfDateTime (y m d h mi s : Nat) : Option Nat :=
  if validDate y m d = false then none
  else if h ≤ 23 && mi ≤ 59 && s ≤ 59 then some (jsGetDayOfDate y m d)
  else if h = 24 && mi = 0 && s = 0 then
    some (jsGetDayOfDate (nextDate y m d).1 (nextDate y m d).2.1 (nextDate y m d).2.2)
  else none

/-! ## Character and digit helpers -/

def digitVal (c : Char) : Nat := c.toNat - 48

/-- Model of `Number()` applied to an all-digit string. -/
def natOfDigits (cs : List Char) : Nat :=
  cs.foldl (fun a c => a * 10 + digitVal c) 0

/-! ## parseAirTime (src/services/bangumi.ts, lines 29-58) -/

/-- Does the list start with a window matching `\d{4}-\d{2}-\d{2}T\d{2}:\d{2}:\d{2}`? -/
def isoShape (cs : List Char) : Bool :=
  match cs with
  | y1 :: y2 :: y3 :: y4 :: a1 :: m1 :: m2 :: a2 :: d1 :: d2 :: t :: h1 :: h2 :: b1
      :: i1 :: i2 :: b2 :: x1 :: x2 :: _ =>
      y1.isDigit && y2.isDigit && y3.isDigit && y4.isDigit && a1 == '-' &&
      m1.isDigit && m2.isDigit && a2 == '-' && d1.isDigit && d2.isDigit && t == 'T' &&
      h1.isDigit && h2.isDigit && b1 == ':' && i1.isDigit && i2.isDigit && b2 == ':' &&
      x1.isDigit && x2.isDigit
  | _ => false

/-- First 19-character window matching the ISO regex
`/(\d{4}-\d{2}-\d{2})T(\d{2}:\d{2}:\d{2})/`, scanning left to right. -/
def findIsoWindow : List Char → Option (List Char)
  | [] => none
  | c :: rest =>
    if isoShape (c :: rest) then some ((c :: rest).take 19)
    else findIsoWindow rest

/-- Model of the `\s` character class (the whitespace actually seen here is plain). -/
def jsWhitespace (c : Char) : Bool :=
  c == ' ' || c == '\t' || c == '\n' || c == '\r'

def isCnWeekdayChar (c : Char) : Bool :=
  c == '一' || c == '二' || c == '三' || c == '四' || c == '五' || c == '六' || c == '日'

/-- The `weekdayMap` lookup with the `|| 0` default from the source. -/
def weekdayMapVal (c : Char) : Nat :=
  if c = '一' then 1 else if c = '二' then 2 else if c = '三' then 3
  else if c = '四' then 4 else if c = '五' then 5 else if c = '六' then 6
  else if c = '日' then 7 else 0

/-- Match `\d{1,2}:\d{2}` at the head of the list (greedy: two hour digits first). -/
def matchShortTime (cs : List Char) : Option (List Char) :=
  match cs with
  | a :: b :: c :: d :: e :: _ =>
    if a.isDigit && b.isDigit && c == ':' && d.isDigit && e.isDigit then some [a, b, c, d, e]
    else if a.isDigit && b == ':' && c.isDigit && d.isDigit then some [a, b, c, d]
    else none
  | [a, b, c, d] =>
    if a.isDigit && b == ':' && c.isDigit && d.isDigit then some [a, b, c, d] else none
  | _ => none

/-- First match of `/(周[一二三四五六日])\s*(\d{1,2}:\d{2})/`: returns the
weekday character and the matched time characters. -/
def findSimpleMatch : List Char → Option (Char × List Char)
  | [] => none
  | c :: rest =>
    if c = '周' then
      match rest with
      | [] => none
      | w :: rest2 =>
        if isCnWeekdayChar w then
          match matchShortTime (rest2.dropWhile jsWhitespace) with
          | some t => some (w, t)
          | none => findSimpleMatch rest
        else findSimpleMatch rest
    else findSimpleMatch rest

structure ParsedAirTime where
  weekday : Nat
  time : String
  date : String
deriving DecidableEq

/-- Embedding of `parseAirTime` (src/services/bangumi.ts lines 29-58).
The ISO branch's `new Date(isoMatch[0]).getDay()` is `jsGetDayOfDateTime`;
its NaN result on an invalid datetime is modelled as weekday 0 (see header). -/
def parseAirTime (broadcast : String) : Option ParsedAirTime :=
  if broadcast = "" then none
  else
    match findIsoWindow broadcast.data with
    | some w =>
      let y := natOfDigits (w.take 4)
      let m := natOfDigits ((w.drop 5).take 2)
      let d := natOfDigits ((w.drop 8).take 2)
      let h := natOfDigits ((w.drop 11).take 2)
      let mi := natOfDigits ((w.drop 14).take 2)
      let s := natOfDigits ((w.drop 17).take 2)
      let wd :=
        match jsGetDayOfDateTime y m d h mi s with
        | some 0 => 7
        | some k => k
        | none => 0
      some ⟨wd, String.mk (((w.drop 11).take 8).take 5), String.mk (w.take 10)⟩
    | none =>
      match findSimpleMatch broadcast.data with
      | some (wc, t) => some ⟨weekdayMapVal wc, String.mk t, ""⟩
      | none => none

/-! ## isCurrentSeasonAnime (src/services/bangumi.ts, lines 61-79) -/

/-- Model of `new Date(airDate).getFullYear() / getMonth() + 1` for the date
strings this program feeds it (the empty string or a `\d{4}-\d{2}-\d{2}`
literal captured by the ISO regex): `none` models the NaN components of an
Invalid Date. -/
def jsParseDateYM (s : String) : Option (Nat × Nat) :=
  match s.data with
  | [y1, y2, y3, y4, a1, m1, m2, a2, d1, d2] =>
    if y1.isDigit && y2.isDigit && y3.isDigit && y4.isDigit && a1 == '-' &&
       m1.isDigit && m2.isDigit && a2 == '-' && d1.isDigit && d2.isDigit then
      let y := natOfDigits [y1, y2, y3, y4]
      let m := natOfDigits [m1, m2]
      let d := natOfDigits [d1, d2]
      if validDate y m d then some (y, m) else none
    else none
  | _ => none

/-- `seasonStartMonth` computed from the current month as in the source:
`(Math.ceil(currentMonth / 3) - 1) * 3 + 1`. -/
def seasonStartMonth (nowMonth : Nat) : Nat :=
  ((nowMonth + 2) / 3 - 1) * 3 + 1

/-- Embedding of `isCurrentSeasonAnime`, with the wall clock passed as the
local year and month of `new Date()`. -/
def isCurrentSeasonAnime (nowYear nowMonth : Nat) (airDate : String) : Bool :=
  if airDate = "" then false
  else
    match jsParseDateYM airDate with
    | some (y, m) => y == nowYear && m ≥ seasonStartMonth nowMonth
    | none => false

/-! ## The catalog refresh pipeline (src/services/bangumi.ts, lines 88-249) -/

/-- JS `a || b` for strings (empty string is falsy). -/
def jsOr (a b : String) : String := if a = "" then b else a

/-- One element of a raw entry's `sites` array; `none` fields model absent
(undefined) properties. -/
structure RawSite where
  site : String
  url : Option String
  id : Option String
deriving DecidableEq

/-- A raw entry of the upstream response, restricted to the consumed fields.
`zhHans` and `zhHant` model `item.titleTranslate?.['zh-Hans']?.[0]` and the
`zh-Hant` counterpart. -/
structure RawItem where
  title : Option String
  zhHans : Option String
  zhHant : Option String
  broadcast : Option String
  sites : Option (List RawSite)
deriving DecidableEq

structure BangumiItem where
  id : String
  title : String
  title_cn : String
  airTime : Option ParsedAirTime
  weekday : Nat
  platforms : List String
deriving DecidableEq

/-- First capture of `/subject\/(\d+)/` at the head of the list, if any. -/
def subjectIdAt (cs : List Char) : Option (List Char) :=
  match cs with
  | 's' :: 'u' :: 'b' :: 'j' :: 'e' :: 'c' :: 't' :: '/' :: rest =>
    let ds := rest.takeWhile Char.isDigit
    if ds.isEmpty then none else some ds
  | _ => none

/-- First match of `/subject\/(\d+)/`, scanning left to right. -/
def extractSubjectId : List Char → Option (List Char)
  | [] => none
  | c :: rest =>
    match subjectIdAt (c :: rest) with
    | some ds => some ds
    | none => extractSubjectId rest

/-- Lines 174-185: extract the Bangumi ID from the matched site, preferring a
truthy `url` (whose failed regex match leaves the ID empty) over the `id`
field. The empty string models both "no ID" and a falsy field. -/
def resolveBangumiId (site : RawSite) : String :=
  let urlS := site.url.getD ""
  if urlS ≠ "" then
    match extractSubjectId urlS.data with
    | some ds => String.mk ds
    | none => ""
  else site.id.getD ""

/-- Lines 199-200: `item.sites?.filter(s => s.site !== 'bangumi').map(s => s.site || '未知平台') || []`. -/
def platformsOf (item : RawItem) : List String :=
  match item.sites with
  | none => []
  | some l => (l.filter (fun s => s.site != "bangumi")).map (fun s => jsOr s.site "未知平台")

/-- Lines 166-225: the body of the per-entry processing loop. Returns `none`
when the entry is skipped (no recognized site, no resolvable ID, no parsed
date, or the season filter rejects the date). The guard
`!airTime?.date || !isCurrentSeasonAnime(airTime.date)` is split into the
`none` arm plus the propositional condition; `airTime?.weekday || 0` equals
`a.weekday` in the surviving branch because weekday 0 is its own JS falsy
default. -/
def processItem (nowYear nowMonth : Nat) (item : RawItem) : Option BangumiItem :=
  match (item.sites.getD []).find? (fun s => s.site == "bangumi") with
  | none => none
  | some bangumiSite =>
    if resolveBangumiId bangumiSite = "" then none
    else
      match parseAirTime (item.broadcast.getD "") with
      | none => none
      | some a =>
        if a.date ≠ "" ∧ isCurrentSeasonAnime nowYear nowMonth a.date = true then
          some
            { id := resolveBangumiId bangumiSite
              title := (item.title.getD "")
              title_cn := jsOr (item.zhHans.getD "") (jsOr (item.zhHant.getD "") (item.title.getD ""))
              airTime := some a
              weekday := a.weekday
              platforms := platformsOf item }
        else none

/-- The full processing loop over the extracted array, in order. -/
def processItems (nowYear nowMonth : Nat) (items : List RawItem) : List BangumiItem :=
  items.filterMap (processItem nowYear nowMonth)

/-- The module-level mutable cache (`calendarCache`, `lastFetchTime`). -/
structure CacheState where
  calendarCache : List BangumiItem
  lastFetchTime : Int
deriving DecidableEq

/-- Shape of the HTTP response that reached the extraction step (lines 150-161):
a bare array, an object with an `items` array, or anything else. -/
inductive Response where
  | arr (items : List RawItem)
  | objWithItems (items : List RawItem)
  | malformed
deriving DecidableEq

/-- Outcome of the fetch attempt(s): `failure` models any exception reaching
the outer catch (both sources unreachable, or a throw while processing). -/
inductive FetchOutcome where
  | success (r : Response)
  | failure
deriving DecidableEq

def FetchOutcome.itemsOf : FetchOutcome → Option (List RawItem)
  | .success (.arr items) => some items
  | .success (.objWithItems items) => some items
  | _ => none

/-- An error outcome of the refresh pipeline: both sources failing, or a
response that is neither a bare array nor an object with an `items` array. -/
def FetchOutcome.isError : FetchOutcome → Bool
  | .failure => true
  | .success .malformed => true
  | _ => false

/-- Result of one `fetchCalendarData()` call: the returned list, the cache
state afterwards, and whether an upstream fetch was performed. -/
structure FetchRun where
  result : List BangumiItem
  cache : CacheState
  fetched : Bool
deriving DecidableEq

/-- Embedding of `fetchCalendarData` (lines 88-249) as a function of the
current cache state, the wall clock (`now` in epoch ms plus the local year
and month), and the modelled fetch outcome. -/
def fetchCalendarData (st : CacheState) (now : Int) (nowYear nowMonth : Nat)
    (f : FetchOutcome) : FetchRun :=
  if now - st.lastFetchTime < 3600 * 1000 ∧ st.calendarCache ≠ [] then
    ⟨st.calendarCache, st, false⟩
  else
    match f with
    | .failure => ⟨[], st, true⟩
    | .success .malformed => ⟨[], st, true⟩
    | .success (.arr items) | .success (.objWithItems items) =>
      let processed := processItems nowYear nowMonth items
      ⟨processed, ⟨processed, now⟩, true⟩

/-! ## Subscriptions and the push scheduler (src/services/subscription.ts, lines 51-98) -/

structure BangumiSubscription where
  id : Nat
  bangumiId : String
  channelId : String
  bangumiTitle : String
  bangumiTitleCn : String
  weekday : Nat
  airTime : String
  subscribedAt : Int
deriving DecidableEq

/-- Combined model of the guard `/^\d{2}:\d{2}$/.test(sub.airTime)` and, when
it passes, of `sub.airTime.split(':').map(Number)`. -/
def parseHHMM (s : String) : Option (Nat × Nat) :=
  match s.data with
  | [a, b, c, d, e] =>
    if a.isDigit && b.isDigit && c == ':' && d.isDigit && e.isDigit then
      some (digitVal a * 10 + digitVal b, digitVal d * 10 + digitVal e)
    else none
  | _ => none

/-- The wall clock of one scheduler tick, as the pieces of `new Date()` the
tick reads: milliseconds since today's local midnight and `getDay()`.
`setHours(h, m, 0, 0)` on a copy of `now` then yields the instant
`midnight + h hours + m minutes` (fixed-offset local timezone). -/
structure LocalNow where
  msSinceMidnight : Int
  jsDay : Nat
deriving DecidableEq

/-- Line 60: `jsDay === 0 ? 7 : jsDay`. -/
def todayWeekday (now : LocalNow) : Nat :=
  if now.jsDay = 0 then 7 else now.jsDay

/-- Lines 77-84: is the subscription due in this tick? The window test
`airTimeDate > lastCheckTime && airTimeDate <= now` is taken relative to
today's midnight on both sides. -/
def subDue (intervalMinutes : Nat) (now : LocalNow) (sub : BangumiSubscription) : Bool :=
  match parseHHMM sub.airTime with
  | none => false
  | some (h, m) =>
    let intervalMillis : Int := (intervalMinutes : Int) * 60 * 1000
    let air : Int := (h : Int) * 3600 * 1000 + (m : Int) * 60 * 1000
    decide (now.msSinceMidnight - intervalMillis < air) && decide (air ≤ now.msSinceMidnight)

/-- Embedding of one `checkAndPushSubscriptions` tick: the subscriptions for
which `sendPushNotification` is invoked, in store retrieval order. The
database query keeps exactly the records whose `weekday` equals today's. -/
def checkAndPushSubscriptions (store : List BangumiSubscription) (intervalMinutes : Nat)
    (now : LocalNow) : List BangumiSubscription :=
  let todaySubscriptions := store.filter (fun s => s.weekday == todayWeekday now)
  todaySubscriptions.filter (subDue intervalMinutes now)

/-! ## Subscribe command (src/commands/subscribe, unnamed part_005, lines 13-72) -/

inductive SubscribeOutcome where
  | invalidId
  | notFound
  | already
  | success
deriving DecidableEq

/-- The `/^\d+$/` test on the command argument. -/
def isAllDigits (s : String) : Bool :=
  s ≠ "" && s.data.all Char.isDigit

/-- Embedding of the subscribe action: `catalog` is the list returned by
`fetchCalendarData()`, `store` the subscription table, `timeUnknown` the
configured sentinel, `newId`/`now` the store-assigned id and timestamp of a
created record. Returns the outcome and the table afterwards. -/
def subscribeAction (store : List BangumiSubscription) (catalog : List BangumiItem)
    (channelId bangumiId timeUnknown : String) (newId : Nat) (now : Int) :
    SubscribeOutcome × List BangumiSubscription :=
  if isAllDigits bangumiId = false then (.invalidId, store)
  else
    match catalog.find? (fun item => item.id == bangumiId) with
    | none => (.notFound, store)
    | some bangumi =>
      let existing := store.filter
        (fun s => s.bangumiId == bangumiId && s.channelId == channelId)
      if existing.length > 0 then (.already, store)
      else
        let newSub : BangumiSubscription :=
          { id := newId
            bangumiId := bangumiId
            channelId := channelId
            bangumiTitle := bangumi.title
            bangumiTitleCn := bangumi.title_cn
            weekday := bangumi.weekday
            airTime := jsOr (match bangumi.airTime with | some a => a.time | none => "") timeUnknown
            subscribedAt := now }
        (.success, store ++ [newSub])

/-! ## Delete command (src/commands/delete.ts, lines 10-36) -/

inductive DeleteOutcome where
  | empty
  | invalidIndex
  | success
  | error
deriving DecidableEq

/-- Embedding of the delete-by-index action. The `.error` arm models the
TypeError thrown by `subscriptions[index-1].id` on an undefined element
(caught by the handler, which then returns the error message without
touching the store); `ctx.database.remove({id})` removes every record whose
id equals the selected one. -/
def deleteAction (store : List BangumiSubscription) (channelId : String) (index : Nat) :
    DeleteOutcome × List BangumiSubscription :=
  let subscriptions := store.filter (fun s => s.channelId == channelId)
  if subscriptions.length = 0 then (.empty, store)
  else if index > subscriptions.length then (.invalidIndex, store)
  else
    match subscriptions[index - 1]? with
    | some subToDelete => (.success, store.filter (fun s => s.id != subToDelete.id))
    | none => (.error, store)

/-! ## Specification-side formatters and shape predicates

These are not translations of the source; they express, independently of the
parsing code, what "a string of the form YYYY-MM-DD" and "a string of the
form HH:MM" mean, so that the theorems below can relate the code to them. -/

/-- Shape `\d{4}-\d{2}-\d{2}` (the form of every date the ISO branch emits). -/
def isDateShape (s : String) : Bool :=
  match s.data with
  | [y1, y2, y3, y4, a1, m1, m2, a2, d1, d2] =>
    y1.isDigit && y2.isDigit && y3.isDigit && y4.isDigit && a1 == '-' &&
    m1.isDigit && m2.isDigit && a2 == '-' && d1.isDigit && d2.isDigit
  | _ => false

/-- Two-digit decimal rendering of `n < 100`. -/
def pad2 (n : Nat) : List Char :=
  [Nat.digitChar (n / 10), Nat.digitChar (n % 10)]

/-- Four-digit decimal rendering of `n < 10000`. -/
def pad4 (n : Nat) : List Char :=
  [Nat.digitChar (n / 1000), Nat.digitChar (n / 100 % 10),
   Nat.digitChar (n / 10 % 10), Nat.digitChar (n % 10)]

/-- The canonical `HH:MM` rendering of an hour/minute pair. -/
def hhmmString (h m : Nat) : String :=
  String.mk (pad2 h ++ ':' :: pad2 m)

/-- The canonical `YYYY-MM-DD` rendering of a calendar date. -/
def isoDateString (y m d : Nat) : String :=
  String.mk (pad4 y ++ '-' :: pad2 m ++ '-' :: pad2 d)

/-- The characters of `YYYY-MM-DDTHH:MM:SS`. -/
def isoDateTimeChars (y m d h mi s : Nat) : List Char :=
  pad4 y ++ '-' :: pad2 m ++ '-' :: pad2 d ++ 'T' :: pad2 h ++ ':' :: pad2 mi ++ ':' :: pad2 s

/-! ## Shared sample data for concrete instantiations -/

def sampleParsed : ParsedAirTime := ⟨1, "15:30", "2025-07-07"⟩

def sampleItem : BangumiItem := ⟨"123", "X", "Xc", some sampleParsed, 1, []⟩

def sampleRaw : RawItem :=
  ⟨some "X", some "Xc", none, some "R/2025-07-07T15:30:00/P7D",
    some [⟨"bangumi", some "https://bgm.tv/subject/123", none⟩, ⟨"gamer", none, none⟩]⟩

/-- A raw entry whose broadcast has a valid current-season date but an
out-of-range time-of-day (hour 25), making `new Date(...)` invalid. -/
def badTimeRaw : RawItem :=
  ⟨some "Y", none, none, some "R/2025-07-07T25:00:00/P7D",
    some [⟨"bangumi", some "https://bgm.tv/subject/456", none⟩]⟩

def sampleSub : BangumiSubscription := ⟨1, "123", "c1", "X", "Xc", 3, "15:30", 0⟩

/-- The catalog item the pipeline builds from `sampleRaw` (checked by `rfl`
in the witnesses that use it). -/
def sampleProcessed : BangumiItem :=
  ⟨"123", "X", "Xc", some ⟨1, "15:30", "2025-07-07"⟩, 1, ["gamer"]⟩

def sampleSub2 : BangumiSubscription := ⟨2, "9", "c1", "Z", "Zc", 1, "20:00", 0⟩

/-! ## Digit and character lemmas -/

lemma isDigit_bounds {c : Char} (h : c.isDigit = true) : 48 ≤ c.toNat ∧ c.toNat ≤ 57 := by
  simp [Char.isDigit] at h
  exact ⟨h.1, h.2⟩

lemma digitVal_lt {c : Char} (h : c.isDigit = true) : digitVal c < 10 := by
  have := isDigit_bounds h
  unfold digitVal
  omega

lemma digitChar_isDigit : ∀ n < 10, (Nat.digitChar n).isDigit = true := by decide

lemma digitVal_digitChar : ∀ n < 10, digitVal (Nat.digitChar n) = n := by decide

lemma digitChar_digitVal {c : Char} (h : c.isDigit = true) : Nat.digitChar (digitVal c) = c := by
  have hb := isDigit_bounds h
  have key : ∀ n < 58, 48 ≤ n → Nat.digitChar (n - 48) = Char.ofNat n := by decide
  have h2 := key c.toNat (by omega) hb.1
  unfold digitVal
  rw [h2, Char.ofNat_toNat]

lemma natOfDigits_two (a b : Char) : natOfDigits [a, b] = 10 * digitVal a + digitVal b := by
  simp [natOfDigits]
  ring

lemma natOfDigits_four (a b c d : Char) :
    natOfDigits [a, b, c, d] =
      1000 * digitVal a + 100 * digitVal b + 10 * digitVal c + digitVal d := by
  simp [natOfDigits]
  ring

lemma natOfDigits_pad2 {n : Nat} (h : n < 100) : natOfDigits (pad2 n) = n := by
  have h1 : n / 10 < 10 := by omega
  have h2 : n % 10 < 10 := by omega
  rw [pad2, natOfDigits_two, digitVal_digitChar _ h1, digitVal_digitChar _ h2]
  omega

lemma natOfDigits_pad4 {n : Nat} (h : n < 10000) : natOfDigits (pad4 n) = n := by
  have h1 : n / 1000 < 10 := by omega
  have h2 : n / 100 % 10 < 10 := by omega
  have h3 : n / 10 % 10 < 10 := by omega
  have h4 : n % 10 < 10 := by omega
  rw [pad4, natOfDigits_four, digitVal_digitChar _ h1, digitVal_digitChar _ h2,
    digitVal_digitChar _ h3, digitVal_digitChar _ h4]
  omega

/-! ## Shape lemmas for the ISO window -/

lemma isoShape_parts {t : List Char} (h : isoShape t = true) :
    ∃ (y1 y2 y3 y4 m1 m2 d1 d2 h1 h2 i1 i2 x1 x2 : Char) (rest : List Char),
      t = y1 :: y2 :: y3 :: y4 :: '-' :: m1 :: m2 :: '-' :: d1 :: d2 :: 'T'
        :: h1 :: h2 :: ':' :: i1 :: i2 :: ':' :: x1 :: x2 :: rest ∧
      y1.isDigit = true ∧ y2.isDigit = true ∧ y3.isDigit = true ∧ y4.isDigit = true ∧
      m1.isDigit = true ∧ m2.isDigit = true ∧ d1.isDigit = true ∧ d2.isDigit = true ∧
      h1.isDigit = true ∧ h2.isDigit = true ∧ i1.isDigit = true ∧ i2.isDigit = true ∧
      x1.isDigit = true ∧ x2.isDigit = true := by
  unfold isoShape at h
  split at h
  case h_1 y1 y2 y3 y4 a1 m1 m2 a2 d1 d2 tc h1 h2 b1 i1 i2 b2 x1 x2 rest =>
    simp only [Bool.and_eq_true, beq_iff_eq] at h
    obtain ⟨h, hx2⟩ := h
    obtain ⟨h, hx1⟩ := h
    obtain ⟨h, hb2⟩ := h
    obtain ⟨h, hi2⟩ := h
    obtain ⟨h, hi1⟩ := h
    obtain ⟨h, hb1⟩ := h
    obtain ⟨h, hh2⟩ := h
    obtain ⟨h, hh1⟩ := h
    obtain ⟨h, htc⟩ := h
    obtain ⟨h, hd2⟩ := h
    obtain ⟨h, hd1⟩ := h
    obtain ⟨h, ha2⟩ := h
    obtain ⟨h, hm2⟩ := h
    obtain ⟨h, hm1⟩ := h
    obtain ⟨h, ha1⟩ := h
    obtain ⟨h, hy4⟩ := h
    obtain ⟨h, hy3⟩ := h
    obtain ⟨hy1, hy2⟩ := h
    subst ha1
    subst ha2
    subst htc
    subst hb1
    subst hb2
    exact ⟨y1, y2, y3, y4, m1, m2, d1, d2, h1, h2, i1, i2, x1, x2, rest, rfl,
      hy1, hy2, hy3, hy4, hm1, hm2, hd1, hd2, hh1, hh2, hi1, hi2, hx1, hx2⟩
  case h_2 => exact absurd h (by simp)

lemma findIsoWindow_eq_some {cs w : List Char} (h : findIsoWindow cs = some w) :
    ∃ t, isoShape t = true ∧ w = t.take 19 := by
  induction cs with
  | nil => simp [findIsoWindow] at h
  | cons c rest ih =>
    unfold findIsoWindow at h
    split at h
    · exact ⟨c :: rest, by assumption, by injection h with h; exact h.symm⟩
    · exact ih h

lemma parseHHMM_window {h1 h2 i1 i2 : Char} (hh1 : h1.isDigit = true) (hh2 : h2.isDigit = true)
    (hi1 : i1.isDigit = true) (hi2 : i2.isDigit = true) :
    (parseHHMM (String.mk [h1, h2, ':', i1, i2])).isSome = true := by
  simp [parseHHMM, hh1, hh2, hi1, hi2]

lemma jsGetDayOfDate_lt (y m d : Nat) : jsGetDayOfDate y m d < 7 :=
  Nat.mod_lt _ (by omega)

lemma jsGetDayOfDateTime_lt {y m d h mi s k : Nat}
    (hk : jsGetDayOfDateTime y m d h mi s = some k) : k < 7 := by
  unfold jsGetDayOfDateTime at hk
  split at hk
  · exact absurd hk (by simp)
  · split at hk
    · injection hk with hk
      subst hk
      exact jsGetDayOfDate_lt y m d
    · split at hk
      · injection hk with hk
        subst hk
        exact jsGetDayOfDate_lt _ _ _
      · exact absurd hk (by simp)

lemma weekday_match_le {o : Option Nat} (ho : ∀ k, o = some k → k < 7) :
    (match o with | some 0 => 7 | some k => k | none => 0) ≤ 7 := by
  match o with
  | none => simp
  | some 0 => simp
  | some (k + 1) => exact Nat.le_of_lt (ho (k + 1) rfl)

/-- Every `some` result of `parseAirTime` with a non-empty date comes from the
ISO branch: its date has the `YYYY-MM-DD` shape, its time has the `HH:MM`
shape, and its weekday is at most 7. -/
lemma parseAirTime_iso_fields {s : String} {a : ParsedAirTime}
    (hp : parseAirTime s = some a) (hd : a.date ≠ "") :
    isDateShape a.date = true ∧ (parseHHMM a.time).isSome = true ∧ a.weekday ≤ 7 := by
  unfold parseAirTime at hp
  split at hp
  · exact absurd hp (by simp)
  · split at hp
    case h_1 w heq =>
      injection hp with hp
      subst hp
      obtain ⟨t, hsh, hw⟩ := findIsoWindow_eq_some heq
      obtain ⟨y1, y2, y3, y4, m1, m2, d1, d2, h1, h2, i1, i2, x1, x2, rest, ht,
        hy1, hy2, hy3, hy4, hm1, hm2, hd1, hd2, hh1, hh2, hi1, hi2, hx1, hx2⟩ :=
        isoShape_parts hsh
      subst ht
      have hw19 : w = [y1, y2, y3, y4, '-', m1, m2, '-', d1, d2, 'T',
          h1, h2, ':', i1, i2, ':', x1, x2] := hw
      subst hw19
      refine ⟨?_, ?_, ?_⟩
      · simp [isDateShape, hy1, hy2, hy3, hy4, hm1, hm2, hd1, hd2]
      · exact parseHHMM_window hh1 hh2 hi1 hi2
      · exact weekday_match_le (fun k hk => jsGetDayOfDateTime_lt hk)
    case h_2 heq =>
      split at hp
      · injection hp with hp
        subst hp
        exact absurd rfl hd
      · exact absurd hp (by simp)

/-- Inversion for the per-entry processing step: a produced item carries the
parsed air time of its raw entry, which has a non-empty date accepted by the
season filter. -/
lemma processItem_eq_some {nowY nowM : Nat} {item : RawItem} {b : BangumiItem}
    (h : processItem nowY nowM item = some b) :
    ∃ a, parseAirTime (item.broadcast.getD "") = some a ∧ b.airTime = some a ∧
      b.weekday = a.weekday ∧ a.date ≠ "" ∧ isCurrentSeasonAnime nowY nowM a.date = true := by
  unfold processItem at h
  split at h
  · exact absurd h (by simp)
  · split at h
    · exact absurd h (by simp)
    · split at h
      · exact absurd h (by simp)
      · case _ a heq =>
        split at h
        · case _ hcond =>
          injection h with h
          subst h
          exact ⟨a, heq, rfl, rfl, hcond.1, hcond.2⟩
        · exact absurd h (by simp)

/-- Membership in a processed generation: the invariant every surviving item
satisfies. -/
lemma mem_processItems {nowY nowM : Nat} {items : List RawItem} {b : BangumiItem}
    (hb : b ∈ processItems nowY nowM items) :
    ∃ a, b.airTime = some a ∧ b.weekday = a.weekday ∧ a.date ≠ "" ∧
      isCurrentSeasonAnime nowY nowM a.date = true ∧
      isDateShape a.date = true ∧ (parseHHMM a.time).isSome = true ∧ a.weekday ≤ 7 := by
  obtain ⟨item, _, hpi⟩ := List.mem_filterMap.mp hb
  obtain ⟨a, hpa, h1, h2, h3, h4⟩ := processItem_eq_some hpi
  have hf := parseAirTime_iso_fields hpa h3
  exact ⟨a, h1, h2, h3, h4, hf.1, hf.2.1, hf.2.2⟩

/-! ## C4: the freshness policy of fetchCalendarData -/

/-- C4: for every call to fetchCalendarData, if the elapsed time since
lastFetchTime is strictly below one hour (3600 * 1000 ms) and the current
cached generation is non-empty, then no fetch is performed and the current
cached generation is returned with the state unchanged; in every other case
a refresh (an upstream fetch) is attempted. -/
theorem fetch_freshness_policy (st : CacheState) (now : Int) (nowYear nowMonth : Nat)
    (f : FetchOutcome) :
    (now - st.lastFetchTime < 3600 * 1000 → st.calendarCache ≠ [] →
      (fetchCalendarData st now nowYear nowMonth f).fetched = false ∧
      (fetchCalendarData st now nowYear nowMonth f).result = st.calendarCache ∧
      (fetchCalendarData st now nowYear nowMonth f).cache = st) ∧
    (¬ (now - st.lastFetchTime < 3600 * 1000 ∧ st.calendarCache ≠ []) →
      (fetchCalendarData st now nowYear nowMonth f).fetched = true) := by
  constructor
  · intro h1 h2
    simp only [fetchCalendarData, if_pos (And.intro h1 h2)]
    exact ⟨trivial, trivial, trivial⟩
  · intro hc
    simp only [fetchCalendarData, if_neg hc]
    cases f with
    | failure => rfl
    | success r => cases r <;> rfl

/-- Witness for fetch_freshness_policy: a fresh non-empty cache is returned
as-is without fetching, and a stale cache triggers a fetch. -/
theorem fetch_freshness_policy_witness :
    (fetchCalendarData ⟨[sampleItem], 0⟩ 5 2025 7 .failure).fetched = false ∧
    (fetchCalendarData ⟨[sampleItem], 0⟩ 5 2025 7 .failure).result = [sampleItem] ∧
    (fetchCalendarData ⟨[], 0⟩ 5 2025 7 .failure).fetched = true := by
  refine ⟨?_, ?_, ?_⟩
  · exact ((fetch_freshness_policy ⟨[sampleItem], 0⟩ 5 2025 7 .failure).1
      (by decide) (by decide)).1
  · exact ((fetch_freshness_policy ⟨[sampleItem], 0⟩ 5 2025 7 .failure).1
      (by decide) (by decide)).2.1
  · exact (fetch_freshness_policy ⟨[], 0⟩ 5 2025 7 .failure).2 (by simp)

/-! ## C3: atomicity of the cache refresh -/

/-- C3: the cache refresh is atomic with respect to errors: on any error
outcome the cached generation and its lastFetchTime stamp are exactly as
before the call, and in general the state after a call is either untouched
or a complete replacement (the new generation together with a fresh stamp),
never a partial update. -/
theorem cache_refresh_atomic (st : CacheState) (now : Int) (nowYear nowMonth : Nat)
    (f : FetchOutcome) :
    (f.isError = true → (fetchCalendarData st now nowYear nowMonth f).cache = st) ∧
    ((fetchCalendarData st now nowYear nowMonth f).cache = st ∨
      ((fetchCalendarData st now nowYear nowMonth f).cache.calendarCache =
          (fetchCalendarData st now nowYear nowMonth f).result ∧
        (fetchCalendarData st now nowYear nowMonth f).cache.lastFetchTime = now)) := by
  by_cases hc : now - st.lastFetchTime < 3600 * 1000 ∧ st.calendarCache ≠ []
  · simp only [fetchCalendarData, if_pos hc]
    exact ⟨fun _ => trivial, Or.inl trivial⟩
  · simp only [fetchCalendarData, if_neg hc]
    cases f with
    | failure => exact ⟨fun _ => rfl, Or.inl rfl⟩
    | success r =>
      cases r with
      | malformed => exact ⟨fun _ => rfl, Or.inl rfl⟩
      | arr items => exact ⟨fun h => by simp [FetchOutcome.isError] at h, Or.inr ⟨rfl, rfl⟩⟩
      | objWithItems items => exact ⟨fun h => by simp [FetchOutcome.isError] at h, Or.inr ⟨rfl, rfl⟩⟩

/-- Witness for cache_refresh_atomic: a failing refresh over a stale cache
leaves the cache state exactly as it was. -/
theorem cache_refresh_atomic_witness :
    (fetchCalendarData ⟨[sampleItem], 0⟩ 3600000 2025 7 .failure).cache = ⟨[sampleItem], 0⟩ :=
  (cache_refresh_atomic ⟨[sampleItem], 0⟩ 3600000 2025 7 .failure).1 rfl

/-! ## C1: what an erroring call returns (corrected) -/

/-- Counterexample to C1 as stated: with a stale but non-empty previous
generation and a failing fetch, the call returns the empty catalog, not the
previous cached generation. -/
theorem fetch_error_cex :
    (fetchCalendarData ⟨[sampleItem], 0⟩ 3600000 2025 7 .failure).result = [] ∧
    (fetchCalendarData ⟨[sampleItem], 0⟩ 3600000 2025 7 .failure).result ≠ [sampleItem] ∧
    ([sampleItem] : List BangumiItem) ≠ [] := by
  refine ⟨rfl, ?_, by simp⟩
  intro h
  exact List.noConfusion (h : ([] : List BangumiItem) = [sampleItem])

/-- C1 (amended): the call never fails, and whenever the underlying fetch or
response parsing errors (unreachable sources or a response shape that is
neither a bare array nor an object with an items array) the call returns the
empty catalog, leaving the previous cached generation and stamp in place in
the cache rather than returning them. (On the fresh-and-non-empty path no
fetch is performed, so no error can occur there.) -/
theorem fetch_error_returns_empty (st : CacheState) (now : Int) (nowYear nowMonth : Nat)
    (f : FetchOutcome) (herr : f.isError = true)
    (hstale : ¬ (now - st.lastFetchTime < 3600 * 1000 ∧ st.calendarCache ≠ [])) :
    (fetchCalendarData st now nowYear nowMonth f).result = [] ∧
    (fetchCalendarData st now nowYear nowMonth f).cache = st := by
  simp only [fetchCalendarData, if_neg hstale]
  cases f with
  | failure => exact ⟨rfl, rfl⟩
  | success r =>
    cases r with
    | malformed => exact ⟨rfl, rfl⟩
    | arr items => simp [FetchOutcome.isError] at herr
    | objWithItems items => simp [FetchOutcome.isError] at herr

/-- Witness for fetch_error_returns_empty at a concrete stale state. -/
theorem fetch_error_returns_empty_witness :
    (fetchCalendarData ⟨[], 42⟩ 7200000 2025 7 (.success .malformed)).result = [] ∧
    (fetchCalendarData ⟨[], 42⟩ 7200000 2025 7 (.success .malformed)).cache = ⟨[], 42⟩ :=
  fetch_error_returns_empty ⟨[], 42⟩ 7200000 2025 7 (.success .malformed) rfl (by simp)

/-! ## C5: every refreshed generation passes the season filter -/

/-- C5: every generation produced by a successful catalog refresh contains
only items whose parsed broadcast date passes the current-season filter:
entries with no parsed air time, an empty date, or a date rejected by
isCurrentSeasonAnime never appear in the produced generation. -/
theorem refresh_generation_season_filtered (st : CacheState) (now : Int) (nowY nowM : Nat)
    (f : FetchOutcome) (items : List RawItem) (b : BangumiItem)
    (hitems : f.itemsOf = some items)
    (hstale : ¬ (now - st.lastFetchTime < 3600 * 1000 ∧ st.calendarCache ≠ []))
    (hb : b ∈ (fetchCalendarData st now nowY nowM f).result) :
    ∃ a, b.airTime = some a ∧ a.date ≠ "" ∧ isCurrentSeasonAnime nowY nowM a.date = true := by
  cases f with
  | failure => simp [FetchOutcome.itemsOf] at hitems
  | success r =>
    cases r with
    | malformed => simp [FetchOutcome.itemsOf] at hitems
    | arr its =>
      simp only [fetchCalendarData, if_neg hstale] at hb
      obtain ⟨a, h1, _, h3, h4, _⟩ := mem_processItems hb
      exact ⟨a, h1, h3, h4⟩
    | objWithItems its =>
      simp only [fetchCalendarData, if_neg hstale] at hb
      obtain ⟨a, h1, _, h3, h4, _⟩ := mem_processItems hb
      exact ⟨a, h1, h3, h4⟩

/-- Witness for refresh_generation_season_filtered at a concrete refresh. -/
theorem refresh_generation_season_filtered_witness :
    ∃ a, sampleProcessed.airTime = some a ∧ a.date ≠ "" ∧
      isCurrentSeasonAnime 2025 7 a.date = true :=
  refresh_generation_season_filtered ⟨[], 0⟩ 0 2025 7 (.success (.arr [sampleRaw]))
    [sampleRaw] sampleProcessed rfl (by simp) (by decide)

/-! ## C10: shape of catalog items (corrected) -/

/-- Counterexample to C10 as stated: a broadcast whose ISO match has a valid
current-season date but an out-of-range time-of-day (hour 25) survives the
season gate, and JS Date parsing of the invalid datetime yields NaN, so the
produced generation contains an item with weekday 0. -/
theorem generation_weekday_cex :
    ∃ b ∈ (fetchCalendarData ⟨[], 0⟩ 0 2025 7 (.success (.arr [badTimeRaw]))).result,
      b.weekday = 0 := by
  decide

/-- C10 (amended): every item of a generation produced by a successful
refresh comes from the ISO branch: it carries a parsed air time with a
non-empty date of shape YYYY-MM-DD and a time of shape HH:MM (so a
subscription snapshotted from the catalog always stores that well-formed
HH:MM value, never the time-unknown sentinel), and its weekday equals the
parsed weekday, which is at most 7 — weekday 0 (rather than 1..7) occurs
exactly when the matched ISO text is not a valid datetime. -/
theorem generation_item_shape (st : CacheState) (now : Int) (nowY nowM : Nat)
    (f : FetchOutcome) (items : List RawItem) (b : BangumiItem)
    (hitems : f.itemsOf = some items)
    (hstale : ¬ (now - st.lastFetchTime < 3600 * 1000 ∧ st.calendarCache ≠ []))
    (hb : b ∈ (fetchCalendarData st now nowY nowM f).result) :
    ∃ a, b.airTime = some a ∧ b.weekday = a.weekday ∧ a.weekday ≤ 7 ∧
      a.date ≠ "" ∧ isDateShape a.date = true ∧ (parseHHMM a.time).isSome = true ∧
      ∀ timeUnknown : String, jsOr a.time timeUnknown = a.time := by
  have hmem : b ∈ processItems nowY nowM items := by
    cases f with
    | failure => simp [FetchOutcome.itemsOf] at hitems
    | success r =>
      cases r with
      | malformed => simp [FetchOutcome.itemsOf] at hitems
      | arr its =>
        injection hitems with hitems
        subst hitems
        simpa only [fetchCalendarData, if_neg hstale] using hb
      | objWithItems its =>
        injection hitems with hitems
        subst hitems
        simpa only [fetchCalendarData, if_neg hstale] using hb
  obtain ⟨a, h1, h2, h3, _, h5, h6, h7⟩ := mem_processItems hmem
  refine ⟨a, h1, h2, h7, h3, h5, h6, ?_⟩
  intro timeUnknown
  unfold jsOr
  rw [if_neg]
  intro h0
  rw [h0] at h6
  simp [parseHHMM] at h6

/-- Witness for generation_item_shape at a concrete refresh. -/
theorem generation_item_shape_witness :
    ∃ a, sampleProcessed.airTime = some a ∧ sampleProcessed.weekday = a.weekday ∧
      a.weekday ≤ 7 ∧ a.date ≠ "" ∧ isDateShape a.date = true ∧
      (parseHHMM a.time).isSome = true ∧
      ∀ timeUnknown : String, jsOr a.time timeUnknown = a.time :=
  generation_item_shape ⟨[], 0⟩ 0 2025 7 (.success (.arr [sampleRaw]))
    [sampleRaw] sampleProcessed rfl (by simp) (by decide)

/-! ## C7: the season filter -/

lemma daysInMonth_le (y m : Nat) : daysInMonth y m ≤ 31 := by
  unfold daysInMonth
  split
  · split <;> omega
  · split <;> omega

lemma stringMk_cons_ne_empty (c : Char) (l : List Char) : String.mk (c :: l) ≠ "" := by
  intro h
  have h2 : (c :: l) = ("" : String).data := congrArg String.data h
  exact absurd h2 (by simp)

/-- C7: for a candidate date string of the shape the program produces,
isCurrentSeasonAnime returns true iff the candidate's year equals the current
year and its month is at least the current quarter's start month; the quarter
start month is one of 1, 4, 7, 10; and an empty or unparseable date string
always yields false. -/
theorem season_filter_spec (nowY nowM : Nat) (h1 : 1 ≤ nowM) (h2 : nowM ≤ 12) :
    (∀ y m d, validDate y m d = true → y < 10000 →
      isCurrentSeasonAnime nowY nowM (isoDateString y m d) =
        (decide (y = nowY) && decide (seasonStartMonth nowM ≤ m))) ∧
    (seasonStartMonth nowM = 1 ∨ seasonStartMonth nowM = 4 ∨
      seasonStartMonth nowM = 7 ∨ seasonStartMonth nowM = 10) ∧
    isCurrentSeasonAnime nowY nowM "" = false ∧
    (∀ s, jsParseDateYM s = none → isCurrentSeasonAnime nowY nowM s = false) := by
  refine ⟨?_, ?_, ?_, ?_⟩
  · intro y m d hv hy
    have hvd := hv
    simp only [validDate, Bool.and_eq_true, decide_eq_true_eq] at hvd
    have hm100 : m < 100 := by omega
    have hd100 : d < 100 := by
      have := daysInMonth_le y m
      omega
    have hy1 : y / 1000 < 10 := by omega
    have hy2 : y / 100 % 10 < 10 := by omega
    have hy3 : y / 10 % 10 < 10 := by omega
    have hy4 : y % 10 < 10 := by omega
    have hma : m / 10 < 10 := by omega
    have hmb : m % 10 < 10 := by omega
    have hda : d / 10 < 10 := by omega
    have hdb : d % 10 < 10 := by omega
    have e1 : natOfDigits [Nat.digitChar (y / 1000), Nat.digitChar (y / 100 % 10),
        Nat.digitChar (y / 10 % 10), Nat.digitChar (y % 10)] = y := by
      rw [natOfDigits_four, digitVal_digitChar _ hy1, digitVal_digitChar _ hy2,
        digitVal_digitChar _ hy3, digitVal_digitChar _ hy4]
      omega
    have e2 : natOfDigits [Nat.digitChar (m / 10), Nat.digitChar (m % 10)] = m := by
      rw [natOfDigits_two, digitVal_digitChar _ hma, digitVal_digitChar _ hmb]
      omega
    have e3 : natOfDigits [Nat.digitChar (d / 10), Nat.digitChar (d % 10)] = d := by
      rw [natOfDigits_two, digitVal_digitChar _ hda, digitVal_digitChar _ hdb]
      omega
    have hjs : jsParseDateYM (isoDateString y m d) = some (y, m) := by
      unfold isoDateString jsParseDateYM pad4 pad2
      simp only [List.cons_append, List.nil_append]
      simp only [digitChar_isDigit _ hy1, digitChar_isDigit _ hy2, digitChar_isDigit _ hy3,
        digitChar_isDigit _ hy4, digitChar_isDigit _ hma, digitChar_isDigit _ hmb,
        digitChar_isDigit _ hda, digitChar_isDigit _ hdb, beq_self_eq_true,
        Bool.and_self, Bool.and_true, Bool.true_and, if_true, e1, e2, e3]
      rw [if_pos hv]
    unfold isCurrentSeasonAnime
    rw [if_neg (show isoDateString y m d ≠ "" from by
      unfold isoDateString pad4
      exact stringMk_cons_ne_empty _ _)]
    rw [hjs]
    show (y == nowY && decide (m ≥ seasonStartMonth nowM)) =
      (decide (y = nowY) && decide (seasonStartMonth nowM ≤ m))
    by_cases hyy : y = nowY <;> by_cases hss : seasonStartMonth nowM ≤ m <;>
      simp [hyy, hss, ge_iff_le, beq_iff_eq]
  · have key : ∀ n < 13, 1 ≤ n →
      (seasonStartMonth n = 1 ∨ seasonStartMonth n = 4 ∨
        seasonStartMonth n = 7 ∨ seasonStartMonth n = 10) := by decide
    exact key nowM (by omega) h1
  · rfl
  · intro s hn
    unfold isCurrentSeasonAnime
    by_cases hs : s = ""
    · rw [if_pos hs]
    · rw [if_neg hs, hn]

/-- Witness for season_filter_spec: a same-quarter date is accepted, a
previous-year date is rejected. -/
theorem season_filter_spec_witness :
    isCurrentSeasonAnime 2025 7 (isoDateString 2025 7 7) = true ∧
    isCurrentSeasonAnime 2025 7 (isoDateString 2024 7 7) = false := by
  have h := season_filter_spec 2025 7 (by decide) (by decide)
  constructor
  · rw [h.1 2025 7 7 (by decide) (by decide)]
    decide
  · rw [h.1 2024 7 7 (by decide) (by decide)]
    decide

/-! ## Day-of-week grounding

`jsGetDayOfDate` is pinned down as "the" day-of-week function by its value at
the epoch and its step under date succession. -/

lemma jsGetDayOfDate_epoch : jsGetDayOfDate 1970 1 1 = 4 := by decide

/-- A pre-1970 spot check: 1960-01-01 was a Friday (JS day 5). -/
lemma jsGetDayOfDate_1960 : jsGetDayOfDate 1960 1 1 = 5 := by decide

lemma daysFromYearZero_next {y m d : Nat} (hv : validDate y m d = true) :
    daysFromYearZero (nextDate y m d).1 (nextDate y m d).2.1 (nextDate y m d).2.2 =
      daysFromYearZero y m d + 1 := by
  simp only [validDate, Bool.and_eq_true, decide_eq_true_eq] at hv
  obtain ⟨⟨⟨hm1, hm2⟩, hd1⟩, hd2⟩ := hv
  unfold nextDate
  by_cases hlt : d < daysInMonth y m
  · rw [if_pos hlt]
    dsimp only
    unfold daysFromYearZero
    omega
  · rw [if_neg hlt]
    have hdd : d = daysInMonth y m := by omega
    by_cases hm12 : m < 12
    · rw [if_pos hm12]
      unfold daysFromYearZero
      have hrs : List.range m = List.range (m - 1) ++ [m - 1] := by
        conv_lhs => rw [show m = (m - 1) + 1 by omega]
        rw [List.range_succ]
      rw [show m + 1 - 1 = m from by omega, hrs]
      simp only [List.map_append, List.sum_append, List.map_cons, List.map_nil,
        List.sum_cons, List.sum_nil]
      rw [show m - 1 + 1 = m from by omega]
      omega
    · rw [if_neg hm12]
      have hm' : m = 12 := by omega
      subst hm'
      have hd31 : d = 31 := by
        rw [hdd]
        simp [daysInMonth]
      subst hd31
      dsimp only
      unfold daysFromYearZero
      have hmsum : ((List.range 11).map (fun i => daysInMonth y (i + 1))).sum =
          if isLeapYear y then 335 else 334 := by
        by_cases hl : isLeapYear y <;>
          simp [List.range_succ, daysInMonth, hl]
      rw [show (12 : Nat) - 1 = 11 from rfl, show (1 : Nat) - 1 = 0 from rfl, hmsum]
      simp only [List.range_zero, List.map_nil, List.sum_nil]
      by_cases hl : isLeapYear y
      · rw [if_pos hl]
        simp only [isLeapYear, Bool.or_eq_true, Bool.and_eq_true, beq_iff_eq,
          bne_iff_ne, ne_eq] at hl
        unfold leapYearsBefore
        omega
      · rw [if_neg hl]
        simp only [isLeapYear, Bool.or_eq_true, Bool.and_eq_true, beq_iff_eq,
          bne_iff_ne, ne_eq] at hl
        unfold leapYearsBefore
        omega

lemma jsGetDayOfDate_next {y m d : Nat} (hv : validDate y m d = true) :
    jsGetDayOfDate (nextDate y m d).1 (nextDate y m d).2.1 (nextDate y m d).2.2 =
      (jsGetDayOfDate y m d + 1) % 7 := by
  unfold jsGetDayOfDate
  rw [daysFromYearZero_next hv]
  omega

/-! ## C6: parseAirTime on ISO inputs and on unmatched inputs -/

lemma isoShape_head_digit {t : List Char} (h : isoShape t = true) :
    ∃ c rest, t = c :: rest ∧ c.isDigit = true := by
  obtain ⟨y1, _, _, _, _, _, _, _, _, _, _, _, _, _, rest, ht, hy1, _⟩ := isoShape_parts h
  exact ⟨y1, _, ht, hy1⟩

/-- A prefix without digit characters cannot contribute to (or shift) the
first ISO window. -/
lemma findIsoWindow_nodigit_append {pre cs : List Char}
    (hnd : ∀ c ∈ pre, c.isDigit = false) :
    findIsoWindow (pre ++ cs) = findIsoWindow cs := by
  induction pre with
  | nil => rfl
  | cons p pre ih =>
    rw [List.cons_append]
    rw [show findIsoWindow (p :: (pre ++ cs)) =
        if isoShape (p :: (pre ++ cs)) = true then some ((p :: (pre ++ cs)).take 19)
        else findIsoWindow (pre ++ cs) from rfl]
    rw [if_neg]
    · exact ih (fun c hc => hnd c (List.mem_cons_of_mem _ hc))
    · intro hsh
      obtain ⟨c, rest, hcr, hcd⟩ := isoShape_head_digit hsh
      injection hcr with hpc _
      have hp := hnd p (List.mem_cons_self _ _)
      rw [hpc] at hp
      rw [hp] at hcd
      exact Bool.noConfusion hcd

lemma findIsoWindow_cons_pos {c : Char} {rest : List Char} (h : isoShape (c :: rest) = true) :
    findIsoWindow (c :: rest) = some ((c :: rest).take 19) := by
  rw [show findIsoWindow (c :: rest) = if isoShape (c :: rest) = true
      then some ((c :: rest).take 19) else findIsoWindow rest from rfl, if_pos h]

lemma isoShape_iso_append {y m d h mi s : Nat} (post : List Char)
    (hy : y < 10000) (hm : m < 100) (hd : d < 100) (hh : h < 100) (hmi : mi < 100)
    (hs : s < 100) :
    isoShape (isoDateTimeChars y m d h mi s ++ post) = true := by
  have b1 : y / 1000 < 10 := by omega
  have b2 : y / 100 % 10 < 10 := by omega
  have b3 : y / 10 % 10 < 10 := by omega
  have b4 : y % 10 < 10 := by omega
  have b5 : m / 10 < 10 := by omega
  have b6 : m % 10 < 10 := by omega
  have b7 : d / 10 < 10 := by omega
  have b8 : d % 10 < 10 := by omega
  have b9 : h / 10 < 10 := by omega
  have b10 : h % 10 < 10 := by omega
  have b11 : mi / 10 < 10 := by omega
  have b12 : mi % 10 < 10 := by omega
  have b13 : s / 10 < 10 := by omega
  have b14 : s % 10 < 10 := by omega
  unfold isoDateTimeChars pad4 pad2
  simp only [List.cons_append, List.nil_append, isoShape,
    digitChar_isDigit _ b1, digitChar_isDigit _ b2, digitChar_isDigit _ b3,
    digitChar_isDigit _ b4, digitChar_isDigit _ b5, digitChar_isDigit _ b6,
    digitChar_isDigit _ b7, digitChar_isDigit _ b8, digitChar_isDigit _ b9,
    digitChar_isDigit _ b10, digitChar_isDigit _ b11, digitChar_isDigit _ b12,
    digitChar_isDigit _ b13, digitChar_isDigit _ b14, beq_self_eq_true, Bool.and_self,
    Bool.and_true, Bool.true_and]

lemma findIsoWindow_iso_append {y m d h mi s : Nat} (post : List Char)
    (hy : y < 10000) (hm : m < 100) (hd : d < 100) (hh : h < 100) (hmi : mi < 100)
    (hs : s < 100) :
    findIsoWindow (isoDateTimeChars y m d h mi s ++ post) =
      some (isoDateTimeChars y m d h mi s) := by
  have hsh := isoShape_iso_append post hy hm hd hh hmi hs
  rw [show isoDateTimeChars y m d h mi s ++ post =
      Nat.digitChar (y / 1000) :: (Nat.digitChar (y / 100 % 10) :: Nat.digitChar (y / 10 % 10)
        :: Nat.digitChar (y % 10) :: '-' :: pad2 m ++ '-' :: pad2 d ++ 'T' :: pad2 h
        ++ ':' :: pad2 mi ++ ':' :: pad2 s ++ post) from rfl] at hsh ⊢
  rw [findIsoWindow_cons_pos hsh]
  rfl

/-- C6: parseAirTime on an input containing the ISO-like substring
YYYY-MM-DDTHH:MM:SS (a valid calendar datetime, located after a digit-free
prefix) returns the triple whose weekday is the calendar date's day-of-week
with Sunday (JS day 0) mapped to 7, whose time is HH:MM:SS truncated to
HH:MM, and whose date is the literal YYYY-MM-DD substring; and any input
matching neither the ISO pattern nor the localized weekday-name pattern
(the empty string included) yields none rather than an error. -/
theorem parseAirTime_spec :
    (∀ (pre post : List Char) (y m d h mi s : Nat),
      (∀ c ∈ pre, c.isDigit = false) →
      validDate y m d = true → y < 10000 → h ≤ 23 → mi ≤ 59 → s ≤ 59 →
      parseAirTime (String.mk (pre ++ isoDateTimeChars y m d h mi s ++ post)) =
        some ⟨if jsGetDayOfDate y m d = 0 then 7 else jsGetDayOfDate y m d,
          hhmmString h mi, isoDateString y m d⟩) ∧
    (∀ s' : String, findIsoWindow s'.data = none → findSimpleMatch s'.data = none →
      parseAirTime s' = none) := by
  constructor
  · intro pre post y m d h mi s hnd hv hy hh hmi hs
    have hvd := hv
    simp only [validDate, Bool.and_eq_true, decide_eq_true_eq] at hvd
    have hm100 : m < 100 := by omega
    have hd100 : d < 100 := by
      have := daysInMonth_le y m
      omega
    have hh100 : h < 100 := by omega
    have hmi100 : mi < 100 := by omega
    have hs100 : s < 100 := by omega
    have hne : String.mk (pre ++ isoDateTimeChars y m d h mi s ++ post) ≠ "" := by
      intro h0
      have h0' : pre ++ isoDateTimeChars y m d h mi s ++ post = ("" : String).data :=
        congrArg String.data h0
      rw [show ("" : String).data = [] from rfl] at h0'
      rcases List.append_eq_nil.mp h0' with ⟨h1, _⟩
      rcases List.append_eq_nil.mp h1 with ⟨_, h3⟩
      revert h3
      unfold isoDateTimeChars pad4
      simp
    unfold parseAirTime
    rw [if_neg hne]
    dsimp only
    rw [List.append_assoc, findIsoWindow_nodigit_append hnd,
      findIsoWindow_iso_append post hy hm100 hd100 hh100 hmi100 hs100]
    dsimp only
    have e1 : natOfDigits ((isoDateTimeChars y m d h mi s).take 4) = y := by
      rw [show (isoDateTimeChars y m d h mi s).take 4 = pad4 y from rfl]
      exact natOfDigits_pad4 hy
    have e2 : natOfDigits (((isoDateTimeChars y m d h mi s).drop 5).take 2) = m := by
      rw [show ((isoDateTimeChars y m d h mi s).drop 5).take 2 = pad2 m from rfl]
      exact natOfDigits_pad2 hm100
    have e3 : natOfDigits (((isoDateTimeChars y m d h mi s).drop 8).take 2) = d := by
      rw [show ((isoDateTimeChars y m d h mi s).drop 8).take 2 = pad2 d from rfl]
      exact natOfDigits_pad2 hd100
    have e4 : natOfDigits (((isoDateTimeChars y m d h mi s).drop 11).take 2) = h := by
      rw [show ((isoDateTimeChars y m d h mi s).drop 11).take 2 = pad2 h from rfl]
      exact natOfDigits_pad2 hh100
    have e5 : natOfDigits (((isoDateTimeChars y m d h mi s).drop 14).take 2) = mi := by
      rw [show ((isoDateTimeChars y m d h mi s).drop 14).take 2 = pad2 mi from rfl]
      exact natOfDigits_pad2 hmi100
    have e6 : natOfDigits (((isoDateTimeChars y m d h mi s).drop 17).take 2) = s := by
      rw [show ((isoDateTimeChars y m d h mi s).drop 17).take 2 = pad2 s from rfl]
      exact natOfDigits_pad2 hs100
    rw [e1, e2, e3, e4, e5, e6]
    have hjs : jsGetDayOfDateTime y m d h mi s = some (jsGetDayOfDate y m d) := by
      unfold jsGetDayOfDateTime
      rw [hv]
      simp [hh, hmi, hs]
    rw [hjs]
    cases hk : jsGetDayOfDate y m d with
    | zero =>
      rw [if_pos rfl]
      rfl
    | succ k =>
      rw [if_neg (by omega)]
      rfl
  · intro s' hiso hsimple
    unfold parseAirTime
    by_cases hs : s' = ""
    · rw [if_pos hs]
    · rw [if_neg hs, hiso, hsimple]

/-- Witness for parseAirTime_spec: the recurrence string from the source's
own comment parses to Sunday (7), 15:30, 2024-07-07; and a pre-1970 date
parses to that date's weekday too (1960-01-01 was a Friday, 5). -/
theorem parseAirTime_spec_witness :
    parseAirTime (String.mk (['R', '/'] ++ isoDateTimeChars 2024 7 7 15 30 0 ++ "/P7D".data)) =
      some ⟨7, hhmmString 15 30, isoDateString 2024 7 7⟩ ∧
    parseAirTime (String.mk (['R', '/'] ++ isoDateTimeChars 1960 1 1 8 0 0 ++ "/P7D".data)) =
      some ⟨5, hhmmString 8 0, isoDateString 1960 1 1⟩ := by
  constructor
  · rw [parseAirTime_spec.1 ['R', '/'] ("/P7D".data) 2024 7 7 15 30 0
      (by decide) (by decide) (by decide) (by decide) (by decide) (by decide)]
    decide
  · rw [parseAirTime_spec.1 ['R', '/'] ("/P7D".data) 1960 1 1 8 0 0
      (by decide) (by decide) (by decide) (by decide) (by decide) (by decide)]
    decide

/-! ## C2: the scheduler's firing condition -/

lemma parseHHMM_hhmmString {h m : Nat} (hh : h < 100) (hm : m < 100) :
    parseHHMM (hhmmString h m) = some (h, m) := by
  have b1 : h / 10 < 10 := by omega
  have b2 : h % 10 < 10 := by omega
  have b3 : m / 10 < 10 := by omega
  have b4 : m % 10 < 10 := by omega
  unfold hhmmString pad2 parseHHMM
  simp only [List.cons_append, List.nil_append,
    digitChar_isDigit _ b1, digitChar_isDigit _ b2, digitChar_isDigit _ b3,
    digitChar_isDigit _ b4, beq_self_eq_true, Bool.and_self, Bool.and_true, Bool.true_and,
    if_true, digitVal_digitChar _ b1, digitVal_digitChar _ b2, digitVal_digitChar _ b3,
    digitVal_digitChar _ b4]
  rw [show h / 10 * 10 + h % 10 = h from by omega, show m / 10 * 10 + m % 10 = m from by omega]

lemma parseHHMM_inv {s : String} {h m : Nat} (hp : parseHHMM s = some (h, m)) :
    h < 100 ∧ m < 100 ∧ s = hhmmString h m := by
  unfold parseHHMM at hp
  split at hp
  case h_1 a b c d e heq =>
    split at hp
    case isTrue hcond =>
      simp only [Bool.and_eq_true, beq_iff_eq] at hcond
      obtain ⟨⟨⟨⟨ha, hb⟩, hc⟩, hd⟩, he⟩ := hcond
      injection hp with hp
      injection hp with h1 h2
      have hva := digitVal_lt ha
      have hvb := digitVal_lt hb
      have hvd := digitVal_lt hd
      have hve := digitVal_lt he
      subst h1
      subst h2
      refine ⟨by omega, by omega, ?_⟩
      have q1 : (digitVal a * 10 + digitVal b) / 10 = digitVal a := by omega
      have q2 : (digitVal a * 10 + digitVal b) % 10 = digitVal b := by omega
      have q3 : (digitVal d * 10 + digitVal e) / 10 = digitVal d := by omega
      have q4 : (digitVal d * 10 + digitVal e) % 10 = digitVal e := by omega
      subst hc
      rw [show s = String.mk s.data from rfl, heq]
      unfold hhmmString pad2
      rw [q1, q2, q3, q4, digitChar_digitVal ha, digitChar_digitVal hb,
        digitChar_digitVal hd, digitChar_digitVal he]
      rfl
    case isFalse => exact absurd hp (by simp)
  case h_2 => exact absurd hp (by simp)

lemma count_filter_neg {α : Type} [DecidableEq α] {p : α → Bool} {a : α} {l : List α}
    (h : p a = false) : List.count a (l.filter p) = 0 := by
  rw [List.count_eq_zero]
  intro hmem
  rw [List.mem_filter, h] at hmem
  exact Bool.noConfusion hmem.2

/-- C2: on a scheduler tick at local time `now` with configured period P
minutes, a subscription fires a delivery attempt exactly when its stored
weekday equals today's weekday (Sunday mapped to 7), its airTime is a
two-digit HH:MM string, and the instant "today at HH:MM:00.000" lies in the
half-open window (now - P, now]; the number of delivery attempts for the
subscription equals its multiplicity in the store when due and is zero
otherwise, and a subscription whose airTime matches no HH:MM rendering
(the time-unknown sentinel included) never fires. -/
theorem scheduler_fire_iff (store : List BangumiSubscription) (P : Nat) (now : LocalNow)
    (sub : BangumiSubscription) :
    (∀ h m : Nat, h < 100 → m < 100 → sub.airTime = hhmmString h m →
      List.count sub (checkAndPushSubscriptions store P now) =
        if sub.weekday = todayWeekday now ∧
            now.msSinceMidnight - (P : Int) * 60 * 1000 <
              (h : Int) * 3600 * 1000 + (m : Int) * 60 * 1000 ∧
            (h : Int) * 3600 * 1000 + (m : Int) * 60 * 1000 ≤ now.msSinceMidnight
          then List.count sub store else 0) ∧
    ((∀ h m : Nat, h < 100 → m < 100 → sub.airTime ≠ hhmmString h m) →
      List.count sub (checkAndPushSubscriptions store P now) = 0) := by
  have hwk : (sub.weekday == todayWeekday now) = decide (sub.weekday = todayWeekday now) := by
    by_cases hw : sub.weekday = todayWeekday now <;> simp [hw]
  constructor
  · intro h m hh hm hs
    have hdue : subDue P now sub =
        (decide (now.msSinceMidnight - (P : Int) * 60 * 1000 <
            (h : Int) * 3600 * 1000 + (m : Int) * 60 * 1000) &&
          decide ((h : Int) * 3600 * 1000 + (m : Int) * 60 * 1000 ≤ now.msSinceMidnight)) := by
      unfold subDue
      rw [hs, parseHHMM_hhmmString hh hm]
    unfold checkAndPushSubscriptions
    rw [List.filter_filter]
    by_cases hcond : sub.weekday = todayWeekday now ∧
        now.msSinceMidnight - (P : Int) * 60 * 1000 <
          (h : Int) * 3600 * 1000 + (m : Int) * 60 * 1000 ∧
        (h : Int) * 3600 * 1000 + (m : Int) * 60 * 1000 ≤ now.msSinceMidnight
    · rw [if_pos hcond]
      apply List.count_filter
      rw [hdue, hwk]
      simp only [Bool.and_eq_true, decide_eq_true_eq]
      exact ⟨⟨hcond.2.1, hcond.2.2⟩, hcond.1⟩
    · rw [if_neg hcond]
      apply count_filter_neg
      rw [hdue, hwk]
      rcases Decidable.not_and_iff_or_not.mp hcond with h1 | h23
      · simp [h1]
      · rcases Decidable.not_and_iff_or_not.mp h23 with h2 | h3
        · simp [h2]
        · simp [h3]
  · intro hno
    have hph : parseHHMM sub.airTime = none := by
      cases hph : parseHHMM sub.airTime with
      | none => rfl
      | some v =>
        obtain ⟨hv1, hv2, hv3⟩ := parseHHMM_inv (hph.trans (by rw [show v = (v.1, v.2) from rfl]))
        exact absurd hv3 (hno v.1 v.2 hv1 hv2)
    have hdue : subDue P now sub = false := by
      unfold subDue
      rw [hph]
    unfold checkAndPushSubscriptions
    rw [List.filter_filter]
    apply count_filter_neg
    rw [hdue]
    rfl

/-- Witness for scheduler_fire_iff: with a 60-minute period and airTime
15:30 on today's weekday, a tick at 15:31 fires exactly once and a tick at
15:29 fires nothing. -/
theorem scheduler_fire_iff_witness :
    List.count sampleSub
        (checkAndPushSubscriptions [sampleSub] 60 ⟨(15 * 3600 + 31 * 60) * 1000, 3⟩) = 1 ∧
    List.count sampleSub
        (checkAndPushSubscriptions [sampleSub] 60 ⟨(15 * 3600 + 29 * 60) * 1000, 3⟩) = 0 := by
  constructor
  · rw [(scheduler_fire_iff [sampleSub] 60 ⟨(15 * 3600 + 31 * 60) * 1000, 3⟩ sampleSub).1
      15 30 (by decide) (by decide) (by decide)]
    rw [if_pos (by refine ⟨rfl, by decide, by decide⟩)]
    decide
  · rw [(scheduler_fire_iff [sampleSub] 60 ⟨(15 * 3600 + 29 * 60) * 1000, 3⟩ sampleSub).1
      15 30 (by decide) (by decide) (by decide)]
    rw [if_neg (by decide)]

/-! ## C8: subscribing an already-subscribed pair (corrected) -/

/-- Counterexample to C8 as stated: when the already-subscribed bangumiId is
absent from the current catalog (e.g. after a season change), the subscribe
operation returns the not-found outcome, not the already-subscribed one —
the catalog lookup happens before the existence check. The store is still
unchanged. -/
theorem subscribe_already_cex :
    (subscribeAction [sampleSub] [] "c1" "123" "时间未知" 2 0).1 = SubscribeOutcome.notFound ∧
    SubscribeOutcome.notFound ≠ SubscribeOutcome.already ∧
    (∃ s ∈ [sampleSub], s.bangumiId = "123" ∧ s.channelId = "c1") := by
  decide

/-- C8 (amended): a subscribe operation on a (bangumiId, channelId) pair for
which a record already exists never creates a record (the store is returned
unchanged on every path), and when the bangumiId is well-formed and resolves
in the current catalog the operation returns the already-subscribed outcome;
hence at most one subscription per pair is ever stored. -/
theorem subscribe_no_duplicate (store : List BangumiSubscription) (catalog : List BangumiItem)
    (channelId bangumiId timeUnknown : String) (newId : Nat) (now : Int)
    (hex : ∃ s ∈ store, s.bangumiId = bangumiId ∧ s.channelId = channelId) :
    (subscribeAction store catalog channelId bangumiId timeUnknown newId now).2 = store ∧
    (∀ b, isAllDigits bangumiId = true →
      catalog.find? (fun item => item.id == bangumiId) = some b →
      (subscribeAction store catalog channelId bangumiId timeUnknown newId now).1 =
        SubscribeOutcome.already) := by
  obtain ⟨s, hsmem, hsb, hsc⟩ := hex
  have hpos : 0 < (store.filter
      (fun s => s.bangumiId == bangumiId && s.channelId == channelId)).length := by
    apply List.length_pos.mpr
    intro hempty
    have : s ∈ store.filter
        (fun s => s.bangumiId == bangumiId && s.channelId == channelId) := by
      rw [List.mem_filter]
      exact ⟨hsmem, by simp [hsb, hsc]⟩
    rw [hempty] at this
    exact absurd this (List.not_mem_nil s)
  unfold subscribeAction
  cases hdig : isAllDigits bangumiId with
  | false =>
    rw [if_pos rfl]
    exact ⟨rfl, fun b hd _ => absurd hd (by simp [hdig])⟩
  | true =>
    rw [if_neg (by simp)]
    cases hfind : catalog.find? (fun item => item.id == bangumiId) with
    | none => exact ⟨rfl, fun b _ hf => absurd hf (by simp)⟩
    | some bg =>
      dsimp only
      rw [if_pos hpos]
      exact ⟨rfl, fun _ _ _ => rfl⟩

/-- Witness for subscribe_no_duplicate: re-subscribing a pair present in
both the store and the catalog leaves the store unchanged and reports
already-subscribed. -/
theorem subscribe_no_duplicate_witness :
    (subscribeAction [sampleSub] [sampleItem] "c1" "123" "时间未知" 2 0).2 = [sampleSub] ∧
    (subscribeAction [sampleSub] [sampleItem] "c1" "123" "时间未知" 2 0).1 =
      SubscribeOutcome.already := by
  have h := subscribe_no_duplicate [sampleSub] [sampleItem] "c1" "123" "时间未知" 2 0
    ⟨sampleSub, by decide, by decide, by decide⟩
  exact ⟨h.1, h.2 sampleItem (by decide) (by decide)⟩

/-! ## C9: delete by ordinal index -/

/-- C9: deleting index k (k ≥ 1, store ids distinct) removes exactly the
k-th record of the channel's list in store retrieval order, leaving every
other record (and their order) unchanged, when 1 ≤ k ≤ n; when k > n it
returns an error outcome (empty-list or invalid-index message) and does not
mutate the store. -/
theorem delete_by_index_spec (store : List BangumiSubscription) (channelId : String) (k : Nat)
    (hnodup : (store.map (fun s => s.id)).Nodup) (hk : 1 ≤ k) :
    (k ≤ (store.filter (fun s => s.channelId == channelId)).length →
      ∃ t l₁ l₂, (store.filter (fun s => s.channelId == channelId))[k - 1]? = some t ∧
        store = l₁ ++ t :: l₂ ∧
        (deleteAction store channelId k).2 = l₁ ++ l₂ ∧
        (deleteAction store channelId k).1 = DeleteOutcome.success) ∧
    ((store.filter (fun s => s.channelId == channelId)).length < k →
      (deleteAction store channelId k).2 = store ∧
      ((deleteAction store channelId k).1 = DeleteOutcome.empty ∨
        (deleteAction store channelId k).1 = DeleteOutcome.invalidIndex)) := by
  constructor
  · intro hkle
    have hlen : k - 1 < (store.filter (fun s => s.channelId == channelId)).length := by
      omega
    have hget : (store.filter (fun s => s.channelId == channelId))[k - 1]? =
        some (store.filter (fun s => s.channelId == channelId))[k - 1] :=
      List.getElem?_eq_getElem hlen
    set t := (store.filter (fun s => s.channelId == channelId))[k - 1] with ht
    have htmem : t ∈ store := by
      have := List.getElem_mem hlen
      exact (List.mem_filter.mp this).1
    obtain ⟨l₁, l₂, hdec⟩ := List.append_of_mem htmem
    have hids := hnodup
    rw [hdec, List.map_append, List.map_cons] at hids
    rcases List.nodup_append.mp hids with ⟨_, h2, hdisj⟩
    have htl2 : t.id ∉ l₂.map (fun s => s.id) := (List.nodup_cons.mp h2).1
    have hfilt : (l₁ ++ t :: l₂).filter (fun s => s.id != t.id) = l₁ ++ l₂ := by
      rw [List.filter_append]
      rw [List.filter_cons_of_neg (by simp)]
      rw [List.filter_eq_self.mpr, List.filter_eq_self.mpr]
      · intro a ha
        have : a.id ∈ l₂.map (fun s => s.id) := List.mem_map_of_mem _ ha
        simp only [bne_iff_ne, ne_eq]
        intro heq
        rw [heq] at this
        exact htl2 this
      · intro a ha
        have hmem : a.id ∈ l₁.map (fun s => s.id) := List.mem_map_of_mem _ ha
        simp only [bne_iff_ne, ne_eq]
        intro heq
        have := hdisj hmem
        rw [heq] at this
        exact this (List.mem_cons_self _ _)
    refine ⟨t, l₁, l₂, hget, hdec, ?_, ?_⟩
    · unfold deleteAction
      rw [if_neg (by omega), if_neg (by omega), hget]
      dsimp only
      rw [hdec] at hnodup ⊢
      exact hfilt
    · unfold deleteAction
      rw [if_neg (by omega), if_neg (by omega), hget]
  · intro hgt
    by_cases hz : (store.filter (fun s => s.channelId == channelId)).length = 0
    · unfold deleteAction
      rw [if_pos hz]
      exact ⟨rfl, Or.inl rfl⟩
    · unfold deleteAction
      rw [if_neg hz, if_pos (by omega)]
      exact ⟨rfl, Or.inr rfl⟩

/-- Witness for delete_by_index_spec: deleting index 2 from a two-element
channel list removes exactly the second record; deleting index 5 is
rejected without mutation. -/
theorem delete_by_index_spec_witness :
    (∃ t l₁ l₂, ([sampleSub, sampleSub2].filter (fun s => s.channelId == "c1"))[2 - 1]? = some t ∧
      [sampleSub, sampleSub2] = l₁ ++ t :: l₂ ∧
      (deleteAction [sampleSub, sampleSub2] "c1" 2).2 = l₁ ++ l₂ ∧
      (deleteAction [sampleSub, sampleSub2] "c1" 2).1 = DeleteOutcome.success) ∧
    ((deleteAction [sampleSub, sampleSub2] "c1" 5).2 = [sampleSub, sampleSub2] ∧
      ((deleteAction [sampleSub, sampleSub2] "c1" 5).1 = DeleteOutcome.empty ∨
        (deleteAction [sampleSub, sampleSub2] "c1" 5).1 = DeleteOutcome.invalidIndex)) := by
  constructor
  · exact (delete_by_index_spec [sampleSub, sampleSub2] "c1" 2 (by decide) (by decide)).1
      (by decide)
  · exact (delete_by_index_spec [sampleSub, sampleSub2] "c1" 5 (by decide) (by decide)).2
      (by decide)

end BangumiSub
